import Mathlib

/-!
Verification development for the OpenFrame slideshow core.

The definitions below are a shallow embedding of the Go sources:
the slide composer (BuildSlidesFromPhotos), the EXIF orientation
transforms, the image tiling performed by loadTiledEbitenImage, the
tile-visiting loops of the draw routines, and the SlideshowGame
state machine (Update, Draw, LoadCurrentSlide, advanceSlide,
freeSlideImages).  Machine integers are modelled as Int (Go int);
pixel buffers as total functions on Nat coordinates, compared only
inside their bounds; fallible operations return Except; the render
loop is modelled as explicit state passing together with an event
trace recording resource disposal and load attempts.
-/

/-- Photo metadata record from internal/photo: file path, capture time,
pixel dimensions and EXIF orientation code. -/
structure Photo where
  FilePath : String
  TakenTime : Int
  Width : Int
  Height : Int
  Orientation : Int
  deriving DecidableEq, Repr

/-- Slide holds up to two photos to be displayed side-by-side if both are
portrait (slideshow package). -/
structure Slide where
  Photos : List Photo
  deriving DecidableEq, Repr

/-- isPortrait from the slideshow package: a basic check, height > width. -/
def isPortrait (p : Photo) : Bool :=
  p.Height > p.Width

/-- displayAllowsSideBySide from the slideshow package: the source simply
returns true. -/
def displayAllowsSideBySide : Bool :=
  true

/-- BuildSlidesFromPhotos scans through all photos in order and combines
consecutive portrait images into a single Slide when feasible.  The Go
loop advances an index i by 2 after pairing and by 1 otherwise; the
structural recursion below consumes the list the same way. -/
def BuildSlidesFromPhotos : List Photo → List Slide
  | [] => []
  | [current] => [⟨[current]⟩]
  | current :: next :: rest =>
    if isPortrait current && isPortrait next && displayAllowsSideBySide then
      ⟨[current, next]⟩ :: BuildSlidesFromPhotos rest
    else
      ⟨[current]⟩ :: BuildSlidesFromPhotos (next :: rest)

/-- Pixel buffer model: width, height and a total pixel function; Go
images decoded from disk and the image.NewRGBA buffers produced by the
orientation helpers all have origin (0,0), so bounds are represented by
width and height alone.  Pixel values are abstracted as Nat. -/
structure Img where
  w : Nat
  h : Nat
  px : Nat → Nat → Nat

/-- Img.eqOn compares two buffers pixel-for-pixel inside their bounds,
together with their dimensions. -/
def Img.eqOn (a b : Img) : Prop :=
  a.w = b.w ∧ a.h = b.h ∧ ∀ x, x < b.w → ∀ y, y < b.h → a.px x y = b.px x y

/-- flipHorizontal: left-right mirror.  The Go loop sets
dst(w-1-x, y) = src(x, y) for every x < w, y < h; reading the
destination at (x, y) therefore yields src(w-1-x, y). -/
def flipHorizontal (src : Img) : Img :=
  ⟨src.w, src.h, fun x y => src.px (src.w - 1 - x) y⟩

/-- flipVertical: top-bottom mirror; dst(x, h-1-y) = src(x, y). -/
def flipVertical (src : Img) : Img :=
  ⟨src.w, src.h, fun x y => src.px x (src.h - 1 - y)⟩

/-- rotate180: dst(w-1-x, h-1-y) = src(x, y). -/
def rotate180 (src : Img) : Img :=
  ⟨src.w, src.h, fun x y => src.px (src.w - 1 - x) (src.h - 1 - y)⟩

/-- rotate90: 90 degrees clockwise; the destination has size h x w and
the Go loop sets dst(h-1-y, x) = src(x, y). -/
def rotate90 (src : Img) : Img :=
  ⟨src.h, src.w, fun x y => src.px y (src.h - 1 - x)⟩

/-- rotate270: 270 degrees clockwise; the destination has size h x w and
the Go loop sets dst(y, w-1-x) = src(x, y). -/
def rotate270 (src : Img) : Img :=
  ⟨src.h, src.w, fun x y => src.px (src.w - 1 - y) x⟩

/-- transpose: the destination has size h x w and the Go loop sets
dst(y, x) = src(x, y). -/
def transpose (src : Img) : Img :=
  ⟨src.h, src.w, fun x y => src.px y x⟩

/-- transverse as implemented in the source: transpose first, then flip
horizontally. -/
def transverse (src : Img) : Img :=
  flipHorizontal (transpose src)

/-- applyEXIFOrientation rotates/flips the image based on the EXIF
orientation value; every value other than 2 through 8 falls through to
the default branch and returns the source unchanged. -/
def applyEXIFOrientation (src : Img) (orientation : Int) : Img :=
  if orientation = 2 then flipHorizontal src
  else if orientation = 3 then rotate180 src
  else if orientation = 4 then flipVertical src
  else if orientation = 5 then transpose src
  else if orientation = 6 then rotate90 src
  else if orientation = 7 then transverse src
  else if orientation = 8 then rotate270 src
  else src

/-- maxTileSize constant from the slideshow package. -/
def maxTileSize : Nat := 2048

/-- minInt from the slideshow package. -/
def minInt (a b : Nat) : Nat :=
  if a < b then a else b

/-- tileStartsFrom models the loop header
for v := pos; v < limit; v += maxTileSize, collecting the visited
start offsets in order. -/
def tileStartsFrom (limit pos : Nat) : List Nat :=
  if pos < limit then pos :: tileStartsFrom limit (pos + maxTileSize)
  else []
termination_by limit - pos
decreasing_by simp [maxTileSize]; omega

/-- subTile models SubImage over the rectangle
(x, y, min(x+maxTileSize, w), min(y+maxTileSize, h)) followed by
ebiten.NewImageFromImage, which copies that rectangle into a fresh
origin-based image. -/
def subTile (src : Img) (x y : Nat) : Img :=
  ⟨minInt (x + maxTileSize) src.w - x,
   minInt (y + maxTileSize) src.h - y,
   fun i j => src.px (x + i) (y + j)⟩

/-- tilesOf models the nested tiling loops of loadTiledEbitenImage:
outer loop over y, inner loop over x, appending one tile per
iteration. -/
def tilesOf (src : Img) : List Img :=
  (tileStartsFrom src.h 0).flatMap (fun y =>
    (tileStartsFrom src.w 0).map (fun x => subTile src x y))

/-- TiledImage holds one large image split into tiles plus the total
corrected dimensions. -/
structure TiledImage where
  tiles : List Img
  totalWidth : Nat
  totalHeight : Nat

/-- loadTiledEbitenImage models the pure part of the loader: the pixel
buffer has already been decoded from disk (decoded); the function
applies the EXIF orientation transform and slices the corrected buffer
into tiles. -/
def loadTiledEbitenImage (decoded : Img) (orientation : Int) : TiledImage :=
  let src := applyEXIFOrientation decoded orientation
  ⟨tilesOf src, src.w, src.h⟩

/-- numTilesAcross n is the number of tile start offsets along an axis of
length n, i.e. the least k with k * maxTileSize >= n. -/
def numTilesAcross (n : Nat) : Nat :=
  (n + (maxTileSize - 1)) / maxTileSize

/-- zeroImg is the placeholder used when indexing outside the tile
list. -/
def zeroImg : Img :=
  ⟨0, 0, fun _ _ => 0⟩

/-- reconstruct places every tile of a TiledImage at its row-major grid
position: the pixel at (x, y) is read from tile
(y / maxTileSize) * tilesPerRow + (x / maxTileSize) at in-tile offset
(x % maxTileSize, y % maxTileSize). -/
def reconstruct (t : TiledImage) : Img :=
  ⟨t.totalWidth, t.totalHeight, fun x y =>
    ((t.tiles[(y / maxTileSize) * numTilesAcross t.totalWidth + x / maxTileSize]?).getD zeroImg).px
      (x % maxTileSize) (y % maxTileSize)⟩

/-- coversAt t k x y states that pixel (x, y) of the full image falls
inside the rectangle covered by tile number k when that tile is placed
at its row-major grid position (k % tilesPerRow, k / tilesPerRow) with
pixel offset (tx * maxTileSize, ty * maxTileSize). -/
def coversAt (t : TiledImage) (k x y : Nat) : Prop :=
  k < t.tiles.length ∧
  (k % numTilesAcross t.totalWidth) * maxTileSize ≤ x ∧
  x < (k % numTilesAcross t.totalWidth) * maxTileSize + ((t.tiles[k]?).getD zeroImg).w ∧
  (k / numTilesAcross t.totalWidth) * maxTileSize ≤ y ∧
  y < (k / numTilesAcross t.totalWidth) * maxTileSize + ((t.tiles[k]?).getD zeroImg).h

/-- drawVisitRow models the inner loop of the draw routines:
for tileX := tx; tileX * maxTileSize < totalWidth; tileX++ — each
iteration reads t.tiles[tileIndex] and increments tileIndex.  The list
collects the accessed tile indices in order. -/
def drawVisitRow (totalWidth tileX tileIndex : Nat) : List Nat :=
  if tileX * maxTileSize < totalWidth then
    tileIndex :: drawVisitRow totalWidth (tileX + 1) (tileIndex + 1)
  else []
termination_by numTilesAcross totalWidth - tileX
decreasing_by simp [numTilesAcross, maxTileSize] at *; omega

/-- drawVisit models the outer loop of the draw routines:
for tileY := ty; tileY * maxTileSize < totalHeight; tileY++ — the
single tileIndex counter persists across rows. -/
def drawVisit (totalWidth totalHeight tileY tileIndex : Nat) : List Nat :=
  if tileY * maxTileSize < totalHeight then
    drawVisitRow totalWidth 0 tileIndex ++
      drawVisit totalWidth totalHeight (tileY + 1)
        (tileIndex + (drawVisitRow totalWidth 0 tileIndex).length)
  else []
termination_by numTilesAcross totalHeight - tileY
decreasing_by simp [numTilesAcross, maxTileSize] at *; omega

/-- drawSingleImageVisits: the sequence of indices with which
drawSingleImage reads t.tiles, re-deriving the grid from totalWidth and
totalHeight with tileIndex starting at 0. -/
def drawSingleImageVisits (t : TiledImage) : List Nat :=
  drawVisit t.totalWidth t.totalHeight 0 0

/-- drawTiledImageVisits: the sequence of indices with which
drawTiledImage reads t.tiles; the loop structure is identical to
drawSingleImage. -/
def drawTiledImageVisits (t : TiledImage) : List Nat :=
  drawVisit t.totalWidth t.totalHeight 0 0

/-- LoadErr distinguishes the two error shapes produced by
LoadCurrentSlide: the defensive invalid-index error built with
fmt.Errorf at the top of the function, and errors propagated from
loading a photo. -/
inductive LoadErr where
  | invalidIndex (i : Int)
  | loadFail (msg : String)
  deriving DecidableEq, Repr

/-- errMessage renders a LoadErr the way the Go error strings read. -/
def errMessage : LoadErr → String
  | LoadErr.invalidIndex i => "invalid currentIndex " ++ toString i
  | LoadErr.loadFail msg => msg

/-- SlideshowEv records the externally visible resource events of the
controller: disposing a resident TiledImage and attempting to load one
photo from disk.  The type of renderer-side images is a parameter T
(Go holds them behind pointers). -/
inductive SlideshowEv (T : Type) where
  | dispose (img : T)
  | loadAttempt (p : Photo)
  deriving DecidableEq, Repr

/-- SlideshowGame state from the slideshow package: the slide list, the
current index (a Go int), the resident TiledImages for the current
slide, the last loading error, the configured interval and the next
switch deadline (wall-clock instants as Int), and the overlay flag. -/
structure SlideshowGame (T : Type) where
  slides : List Slide
  currentIndex : Int
  currentTiledImages : List T
  loadingError : Option LoadErr
  interval : Int
  switchTime : Int
  dateOverlay : Bool
  deriving DecidableEq, Repr

/-- NewSlideshowGame initializes a slideshow: index and images take Go
zero values, the deadline is now plus the interval. -/
def NewSlideshowGame (T : Type) (slides : List Slide) (interval now : Int)
    (dateOverlay : Bool) : SlideshowGame T :=
  ⟨slides, 0, [], none, interval, now + interval, dateOverlay⟩

/-- freeSlideImages disposes any existing TiledImages of the current
slide and clears the list; it returns early when the list is empty.
The second component is the list of dispose events in order. -/
def freeSlideImages {T : Type} (g : SlideshowGame T) :
    SlideshowGame T × List (SlideshowEv T) :=
  if g.currentTiledImages.length = 0 then (g, [])
  else ({ g with currentTiledImages := [] },
        g.currentTiledImages.map SlideshowEv.dispose)

/-- loadPhotos models the load loop of LoadCurrentSlide: each photo of
the slide is loaded in order through the oracle load (standing for
loadTiledEbitenImage on disk contents); the first failure aborts the
loop and returns the error.  The second component records every load
attempt in order. -/
def loadPhotos {T : Type} (load : Photo → Except String T) :
    List Photo → Except String (List T) × List (SlideshowEv T)
  | [] => (Except.ok [], [])
  | p :: ps =>
    match load p with
    | Except.error e => (Except.error e, [SlideshowEv.loadAttempt p])
    | Except.ok timg =>
      match loadPhotos load ps with
      | (Except.error e, evs) =>
        (Except.error e, SlideshowEv.loadAttempt p :: evs)
      | (Except.ok rest, evs) =>
        (Except.ok (timg :: rest), SlideshowEv.loadAttempt p :: evs)

/-- LoadCurrentSlide loads up to two TiledImages for the current slide:
it fails on an out-of-range index, otherwise frees the resident images,
loads each photo of the slide, and installs the new images only when
every load succeeded. -/
def LoadCurrentSlide {T : Type} (load : Photo → Except String T)
    (g : SlideshowGame T) :
    Except LoadErr Unit × SlideshowGame T × List (SlideshowEv T) :=
  if g.currentIndex < 0 ∨ (g.slides.length : Int) ≤ g.currentIndex then
    (Except.error (LoadErr.invalidIndex g.currentIndex), g, [])
  else
    let fr := freeSlideImages g
    let slide := fr.1.slides.getD fr.1.currentIndex.toNat ⟨[]⟩
    let lp := loadPhotos load slide.Photos
    match lp.1 with
    | Except.error e => (Except.error (LoadErr.loadFail e), fr.1, fr.2 ++ lp.2)
    | Except.ok imgs =>
      (Except.ok (), { fr.1 with currentTiledImages := imgs }, fr.2 ++ lp.2)

/-- advanceSlide moves the index forward with Go truncated modulus,
frees the old images, attempts to load the new slide recording success
or failure in loadingError, and resets the switch deadline. -/
def advanceSlide {T : Type} (load : Photo → Except String T) (now : Int)
    (g : SlideshowGame T) : SlideshowGame T × List (SlideshowEv T) :=
  let gIdx := { g with
    currentIndex := (g.currentIndex + 1).tmod (g.slides.length : Int) }
  let fr := freeSlideImages gIdx
  let lc := LoadCurrentSlide load fr.1
  let gErr := match lc.1 with
    | Except.error e => { lc.2.1 with loadingError := some e }
    | Except.ok _ => { lc.2.1 with loadingError := none }
  ({ gErr with switchTime := now + g.interval }, fr.2 ++ lc.2.2)

/-- Update models one render-loop tick: exit on ESC, advance when the
wall clock is past the stored deadline, otherwise leave the state
untouched.  none models the exit-requested error return. -/
def Update {T : Type} (load : Photo → Except String T) (escPressed : Bool)
    (now : Int) (g : SlideshowGame T) :
    Option (SlideshowGame T × List (SlideshowEv T)) :=
  if escPressed then none
  else if g.switchTime < now then some (advanceSlide load now g)
  else some (g, [])

/-- DrawOut is the render outcome of one Draw call: either a debug
message or the current slide with its resident images. -/
inductive DrawOut (T : Type) where
  | message (s : String)
  | slide (s : Slide) (imgs : List T)
  deriving DecidableEq, Repr

/-- Draw renders the current state: a message when there are no slides,
the loading error text when one is recorded, a loading message while
no images are resident, and otherwise the current slide. -/
def Draw {T : Type} (g : SlideshowGame T) : DrawOut T :=
  if g.slides.length = 0 then DrawOut.message "No slides (photos) found."
  else
    match g.loadingError with
    | some e => DrawOut.message ("Error loading image(s):\n" ++ errMessage e)
    | none =>
      if g.currentTiledImages.length = 0 then DrawOut.message "Loading slide..."
      else DrawOut.slide (g.slides.getD g.currentIndex.toNat ⟨[]⟩)
             g.currentTiledImages

/-- SetLoadingError records a loading error, as used by main on the
initial load. -/
def SetLoadingError {T : Type} (g : SlideshowGame T) (e : LoadErr) :
    SlideshowGame T :=
  { g with loadingError := some e }

/-- Modelled from the spec: the remote-command consumer installed via
SetRemoteCommandChan is absent from the sources (only its caller in
cmd/openframe/main.go and the cec.RemoteCommand producer exist).  Per
the spec a Left event decrements the index with wraparound to the last
slide before 0, reloads the slide, and resets the deadline; it is valid
from any state. -/
def handleLeftEvent {T : Type} (load : Photo → Except String T) (now : Int)
    (g : SlideshowGame T) : SlideshowGame T × List (SlideshowEv T) :=
  let gIdx := { g with
    currentIndex :=
      if g.currentIndex = 0 then (g.slides.length : Int) - 1
      else g.currentIndex - 1 }
  let fr := freeSlideImages gIdx
  let lc := LoadCurrentSlide load fr.1
  let gErr := match lc.1 with
    | Except.error e => { lc.2.1 with loadingError := some e }
    | Except.ok _ => { lc.2.1 with loadingError := none }
  ({ gErr with switchTime := now + g.interval }, fr.2 ++ lc.2.2)

/-- ReachableGame: states reachable from the constructor through
render-loop ticks (Update, which calls advanceSlide on deadline
expiry). -/
inductive ReachableGame {T : Type} (load : Photo → Except String T) :
    SlideshowGame T → Prop where
  | init (slides : List Slide) (interval now : Int) (dateOverlay : Bool) :
      ReachableGame load (NewSlideshowGame T slides interval now dateOverlay)
  | step (g gn : SlideshowGame T) (esc : Bool) (now : Int)
      (tr : List (SlideshowEv T)) :
      ReachableGame load g → Update load esc now g = some (gn, tr) →
      ReachableGame load gn

theorem maxTileSize_pos : 0 < maxTileSize := by
  simp [maxTileSize]

theorem tileStartsFrom_eq (limit pos : Nat) :
    tileStartsFrom limit pos =
      (List.range (numTilesAcross (limit - pos))).map
        (fun i => pos + i * maxTileSize) := by
  simp only [numTilesAcross, maxTileSize]
  norm_num
  generalize hn : limit - pos = n
  induction n using Nat.strong_induction_on generalizing pos with
  | _ n ih =>
    rw [tileStartsFrom]
    simp only [maxTileSize]
    split
    · have hpos : 1 ≤ n := by omega
      have h1 : (n + 2047) / 2048 = (n - 2048 + 2047) / 2048 + 1 := by omega
      rw [h1, List.range_succ_eq_map]
      have hih := ih (n - 2048) (by omega) (pos + 2048) (by omega)
      simp only [List.map_cons, List.map_map, Nat.zero_mul, Nat.add_zero]
      rw [hih]
      congr 1
      apply List.map_congr_left
      intro i hi
      simp only [Function.comp_apply, Nat.succ_eq_add_one]
      ring
    · have h0 : n = 0 := by omega
      simp [h0]

theorem tileStartsFrom_zero (limit : Nat) :
    tileStartsFrom limit 0 =
      (List.range (numTilesAcross limit)).map (fun i => i * maxTileSize) := by
  rw [tileStartsFrom_eq]
  simp

theorem grid_length {α : Type} (g : Nat → Nat → α) (a b : Nat) :
    ((List.range a).flatMap (fun ty => (List.range b).map (g ty))).length =
      a * b := by
  rw [List.length_flatMap]
  simp only [Function.comp_def, List.length_map, List.length_range,
    List.map_const']
  simp [List.sum_replicate, Nat.mul_comm]

theorem grid_getElem {α : Type} (g : Nat → Nat → α) (a b k : Nat)
    (hk : k < a * b) :
    (((List.range a).flatMap (fun ty => (List.range b).map (g ty))))[k]? =
      some (g (k / b) (k % b)) := by
  induction a with
  | zero => simp at hk
  | succ a ih =>
    rw [List.range_succ, List.flatMap_append, List.getElem?_append]
    rcases Nat.lt_or_ge k (a * b) with hlt | hge
    · rw [if_pos (by rw [grid_length]; exact hlt)]
      exact ih hlt
    · rw [if_neg (by rw [grid_length]; omega), grid_length]
      simp only [List.flatMap_cons, List.flatMap_nil, List.append_nil]
      have hk' : k < a * b + b := by rw [Nat.succ_mul] at hk; exact hk
      have hkb : k - a * b < b := by omega
      have hdiv : k / b = a := Nat.div_eq_of_lt_le hge hk
      have hmod : k % b = k - a * b := by
        have h2 := Nat.mod_add_div k b
        rw [hdiv] at h2
        have h3 : b * a = a * b := Nat.mul_comm b a
        omega
      rw [List.getElem?_map, List.getElem?_range hkb, hdiv, hmod]
      simp

theorem tilesOf_grid (src : Img) :
    tilesOf src =
      (List.range (numTilesAcross src.h)).flatMap (fun ty =>
        (List.range (numTilesAcross src.w)).map (fun tx =>
          subTile src (tx * maxTileSize) (ty * maxTileSize))) := by
  rw [tilesOf, tileStartsFrom_zero, tileStartsFrom_zero, List.flatMap_map]
  congr 1
  funext ty
  rw [List.map_map]
  rfl

theorem tilesOf_length (src : Img) :
    (tilesOf src).length = numTilesAcross src.h * numTilesAcross src.w := by
  rw [tilesOf_grid]
  exact grid_length _ _ _

theorem tilesOf_getElem (src : Img) (k : Nat)
    (hk : k < numTilesAcross src.h * numTilesAcross src.w) :
    (tilesOf src)[k]? =
      some (subTile src ((k % numTilesAcross src.w) * maxTileSize)
        ((k / numTilesAcross src.w) * maxTileSize)) := by
  rw [tilesOf_grid]
  exact grid_getElem _ _ _ _ hk

theorem drawVisitRow_eq (w tx idx : Nat) :
    drawVisitRow w tx idx =
      (List.range (numTilesAcross w - tx)).map (fun i => idx + i) := by
  generalize hn : numTilesAcross w - tx = n
  induction n generalizing tx idx with
  | zero =>
    rw [drawVisitRow, if_neg]
    · simp
    · simp only [numTilesAcross, maxTileSize] at *
      omega
  | succ n ih =>
    rw [drawVisitRow, if_pos]
    · rw [List.range_succ_eq_map, List.map_cons, List.map_map,
        ih (tx + 1) (idx + 1) (by omega)]
      simp only [Nat.add_zero]
      congr 1
      apply List.map_congr_left
      intro i hi
      simp only [Function.comp_apply]
      omega
    · simp only [numTilesAcross, maxTileSize] at *
      omega

theorem drawVisit_eq (w h ty idx : Nat) :
    drawVisit w h ty idx =
      (List.range ((numTilesAcross h - ty) * numTilesAcross w)).map
        (fun i => idx + i) := by
  generalize hn : numTilesAcross h - ty = n
  induction n generalizing ty idx with
  | zero =>
    rw [drawVisit, if_neg]
    · simp
    · simp only [numTilesAcross, maxTileSize] at *
      omega
  | succ n ih =>
    rw [drawVisit, if_pos]
    · rw [ih (ty + 1) (idx + (drawVisitRow w 0 idx).length) (by omega),
        drawVisitRow_eq]
      simp only [Nat.sub_zero, List.length_map, List.length_range]
      rw [Nat.succ_mul, Nat.add_comm (n * numTilesAcross w),
        List.range_add, List.map_append, List.map_map]
      congr 1
      apply List.map_congr_left
      intro i hi
      simp only [Function.comp_apply]
      omega
    · simp only [numTilesAcross, maxTileSize] at *
      omega

theorem drawVisit_zero (w h : Nat) :
    drawVisit w h 0 0 = List.range (numTilesAcross h * numTilesAcross w) := by
  rw [drawVisit_eq]
  simp

theorem freeSlideImages_eq {T : Type} (g : SlideshowGame T) :
    freeSlideImages g =
      ({ g with currentTiledImages := [] },
       g.currentTiledImages.map SlideshowEv.dispose) := by
  rcases g with ⟨s, ci, imgs, le, iv, st, d⟩
  rw [freeSlideImages]
  split
  · rename_i hlen
    simp only [List.length_eq_zero] at hlen
    subst hlen
    rfl
  · rfl

theorem loadPhotos_events {T : Type} (load : Photo → Except String T)
    (ps : List Photo) :
    ∀ ev ∈ (loadPhotos load ps).2, ∃ p, ev = SlideshowEv.loadAttempt p := by
  induction ps with
  | nil => simp [loadPhotos]
  | cons p ps ih =>
    intro ev hev
    rw [loadPhotos] at hev
    cases hl : load p with
    | error e =>
      rw [hl] at hev
      simp only at hev
      simp only [List.mem_singleton] at hev
      exact ⟨p, hev⟩
    | ok timg =>
      rw [hl] at hev
      cases hrec : loadPhotos load ps with
      | mk r evs =>
        rw [hrec] at hev
        cases r with
        | error e =>
          simp only [List.mem_cons] at hev
          rcases hev with hev | hev
          · exact ⟨p, hev⟩
          · exact ih ev (by rw [hrec]; exact hev)
        | ok rest =>
          simp only [List.mem_cons] at hev
          rcases hev with hev | hev
          · exact ⟨p, hev⟩
          · exact ih ev (by rw [hrec]; exact hev)

theorem advanceSlide_eq {T : Type} (load : Photo → Except String T)
    (now : Int) (g : SlideshowGame T) (hidx : 0 ≤ g.currentIndex)
    (hne : g.slides ≠ []) :
    advanceSlide load now g =
      ((match (loadPhotos load ((g.slides.getD
            ((g.currentIndex + 1).tmod (g.slides.length : Int)).toNat
            ⟨[]⟩).Photos) :
          Except String (List T) × List (SlideshowEv T)) with
        | (Except.error e, _) => { g with
            currentIndex := (g.currentIndex + 1).tmod (g.slides.length : Int),
            currentTiledImages := [],
            loadingError := some (LoadErr.loadFail e),
            switchTime := now + g.interval }
        | (Except.ok imgs, _) => { g with
            currentIndex := (g.currentIndex + 1).tmod (g.slides.length : Int),
            currentTiledImages := imgs,
            loadingError := none,
            switchTime := now + g.interval }),
       g.currentTiledImages.map SlideshowEv.dispose ++
         (loadPhotos load ((g.slides.getD
            ((g.currentIndex + 1).tmod (g.slides.length : Int)).toNat
            ⟨[]⟩).Photos)).2) := by
  have hlen : 0 < (g.slides.length : Int) := by
    have h := List.length_pos.mpr hne
    exact_mod_cast h
  have h0 : 0 ≤ (g.currentIndex + 1).tmod (g.slides.length : Int) :=
    Int.tmod_nonneg _ (by omega)
  have h1 : (g.currentIndex + 1).tmod (g.slides.length : Int) <
      (g.slides.length : Int) :=
    Int.tmod_lt_of_pos _ hlen
  rw [advanceSlide, freeSlideImages_eq, LoadCurrentSlide]
  dsimp only
  rw [if_neg (by push_neg; exact ⟨by omega, by omega⟩)]
  rw [freeSlideImages_eq]
  dsimp only
  rcases hlp : loadPhotos load ((g.slides.getD
      ((g.currentIndex + 1).tmod (g.slides.length : Int)).toNat
      ⟨[]⟩).Photos) with ⟨r, evs⟩
  cases r with
  | error e => simp [hlp]
  | ok imgs => simp [hlp]

theorem LoadCurrentSlide_preserves {T : Type} (load : Photo → Except String T)
    (g : SlideshowGame T) :
    (LoadCurrentSlide load g).2.1.slides = g.slides ∧
    (LoadCurrentSlide load g).2.1.currentIndex = g.currentIndex := by
  rw [LoadCurrentSlide]
  split
  · exact ⟨rfl, rfl⟩
  · rw [freeSlideImages_eq]
    dsimp only
    split
    · exact ⟨rfl, rfl⟩
    · exact ⟨rfl, rfl⟩

theorem advanceSlide_preserves {T : Type} (load : Photo → Except String T)
    (now : Int) (g : SlideshowGame T) :
    (advanceSlide load now g).1.slides = g.slides ∧
    (advanceSlide load now g).1.currentIndex =
      (g.currentIndex + 1).tmod (g.slides.length : Int) := by
  rw [advanceSlide, freeSlideImages_eq]
  dsimp only
  constructor
  · split <;> exact (LoadCurrentSlide_preserves load _).1
  · split <;> exact (LoadCurrentSlide_preserves load _).2

/-! Concrete fixtures used by the witness theorems. -/

/-- Concrete portrait photo (height 20 > width 10). -/
def pA : Photo := ⟨"a", 0, 10, 20, 1⟩

/-- Concrete portrait photo. -/
def pB : Photo := ⟨"b", 1, 10, 20, 1⟩

/-- Concrete landscape photo (width 20 > height 10). -/
def pC : Photo := ⟨"c", 2, 20, 10, 1⟩

/-- Three concrete one-photo slides. -/
def exSlides : List Slide := [⟨[pA]⟩, ⟨[pB]⟩, ⟨[pC]⟩]

/-- Loader oracle that always succeeds with a token image. -/
def exLoad : Photo → Except String Nat := fun _ => Except.ok 0

/-- Loader oracle that always fails. -/
def exLoadFail : Photo → Except String Nat := fun _ => Except.error "boom"

/-- Concrete 2 x 1 pixel buffer with pixel values 0 and 1. -/
def imgTwoByOne : Img := ⟨2, 1, fun x _ => x⟩

/-- Concrete 3000 x 2500 pixel buffer (larger than maxTileSize in both
dimensions, with remainders). -/
def imgLarge : Img := ⟨3000, 2500, fun x y => x + y⟩

/-- C10: applyEXIFOrientation treats every orientation code other than
2 through 8 — including out-of-range values such as 0, 9 or negative
numbers, not only the documented identity code 1 — as the identity
transform, returning the decoded image unchanged rather than failing. -/
theorem applyEXIFOrientation_default_identity (src : Img) (o : Int)
    (h : ¬ (2 ≤ o ∧ o ≤ 8)) : applyEXIFOrientation src o = src := by
  rw [applyEXIFOrientation, if_neg (by omega), if_neg (by omega),
    if_neg (by omega), if_neg (by omega), if_neg (by omega),
    if_neg (by omega), if_neg (by omega)]

/-- Witness for C10 at the concrete out-of-range codes 0, 9 and -3. -/
theorem applyEXIFOrientation_default_identity_witness :
    applyEXIFOrientation imgTwoByOne 0 = imgTwoByOne ∧
    applyEXIFOrientation imgTwoByOne 9 = imgTwoByOne ∧
    applyEXIFOrientation imgTwoByOne (-3) = imgTwoByOne :=
  ⟨applyEXIFOrientation_default_identity imgTwoByOne 0 (by omega),
   applyEXIFOrientation_default_identity imgTwoByOne 9 (by omega),
   applyEXIFOrientation_default_identity imgTwoByOne (-3) (by omega)⟩

/-- C2 fails on the code: the transverse helper is implemented as
transpose followed by flipHorizontal, which equals the 90-degree
clockwise rotation rather than the documented anti-diagonal flip, so
applying orientation 7 twice yields the 180-degree rotation of the
buffer, not the original.  Evaluated on the concrete 2 x 1 buffer with
pixels (0, 1): after two applications pixel (0,0) reads 1 instead
of 0. -/
theorem transverse_roundtrip_fails_eval :
    (applyEXIFOrientation (applyEXIFOrientation imgTwoByOne 7) 7).w =
      imgTwoByOne.w ∧
    (applyEXIFOrientation (applyEXIFOrientation imgTwoByOne 7) 7).h =
      imgTwoByOne.h ∧
    (applyEXIFOrientation (applyEXIFOrientation imgTwoByOne 7) 7).px 0 0 = 1 ∧
    imgTwoByOne.px 0 0 = 0 ∧
    ¬ Img.eqOn (applyEXIFOrientation (applyEXIFOrientation imgTwoByOne 7) 7)
        imgTwoByOne := by
  refine ⟨rfl, rfl, by decide, by decide, ?_⟩
  intro hEq
  have h := hEq.2.2 0 (by decide) 0 (by decide)
  revert h
  decide

/-- C1: BuildSlidesFromPhotos partitions the input: concatenating the
Photos of the output slides in order gives back exactly the input list
(every photo in exactly one slide, in original relative order), and
every two-photo slide consists of two input-adjacent photos that are
both portrait (height strictly greater than width). -/
theorem BuildSlidesFromPhotos_partition_pairs (photos : List Photo) :
    ((BuildSlidesFromPhotos photos).map Slide.Photos).flatten = photos ∧
    ∀ s ∈ BuildSlidesFromPhotos photos, ∀ a b : Photo, s.Photos = [a, b] →
      isPortrait a = true ∧ isPortrait b = true ∧ [a, b] <:+: photos := by
  induction photos using BuildSlidesFromPhotos.induct with
  | case1 => simp [BuildSlidesFromPhotos]
  | case2 current =>
    refine ⟨by simp [BuildSlidesFromPhotos], ?_⟩
    intro s hs a b hab
    simp only [BuildSlidesFromPhotos, List.mem_singleton] at hs
    subst hs
    simp at hab
  | case3 current next rest hcond ih =>
    have hb : BuildSlidesFromPhotos (current :: next :: rest) =
        ⟨[current, next]⟩ :: BuildSlidesFromPhotos rest := by
      simp only [BuildSlidesFromPhotos, if_pos hcond]
    have hcond2 := hcond
    rw [Bool.and_eq_true, Bool.and_eq_true] at hcond2
    constructor
    · rw [hb]
      simp only [List.map_cons, List.flatten_cons]
      rw [ih.1]
      rfl
    · intro s hs a b hab
      rw [hb] at hs
      simp only [List.mem_cons] at hs
      rcases hs with rfl | hs
      · simp only [List.cons.injEq, and_true] at hab
        obtain ⟨rfl, rfl⟩ := hab
        exact ⟨hcond2.1.1, hcond2.1.2, ⟨[], rest, rfl⟩⟩
      · have h := ih.2 s hs a b hab
        refine ⟨h.1, h.2.1, ?_⟩
        obtain ⟨u, v, huv⟩ := h.2.2
        exact ⟨current :: next :: u, v, by
          simp only [List.cons_append]
          rw [huv]⟩
  | case4 current next rest hcond ih =>
    have hb : BuildSlidesFromPhotos (current :: next :: rest) =
        ⟨[current]⟩ :: BuildSlidesFromPhotos (next :: rest) := by
      simp only [BuildSlidesFromPhotos, if_neg hcond]
    constructor
    · rw [hb]
      simp only [List.map_cons, List.flatten_cons]
      rw [ih.1]
      rfl
    · intro s hs a b hab
      rw [hb] at hs
      simp only [List.mem_cons] at hs
      rcases hs with rfl | hs
      · simp at hab
      · have h := ih.2 s hs a b hab
        refine ⟨h.1, h.2.1, ?_⟩
        obtain ⟨u, v, huv⟩ := h.2.2
        exact ⟨current :: u, v, by
          simp only [List.cons_append]
          rw [huv]⟩

/-- Witness for C1 on the spec scenario: two portraits followed by a
landscape produce the pair slide followed by the single slide. -/
theorem BuildSlidesFromPhotos_partition_pairs_witness :
    ((BuildSlidesFromPhotos [pA, pB, pC]).map Slide.Photos).flatten =
      [pA, pB, pC] ∧
    isPortrait pA = true ∧ isPortrait pB = true ∧
    [pA, pB] <:+: [pA, pB, pC] :=
  ⟨(BuildSlidesFromPhotos_partition_pairs [pA, pB, pC]).1,
   (BuildSlidesFromPhotos_partition_pairs [pA, pB, pC]).2 ⟨[pA, pB]⟩
     (by decide) pA pB rfl⟩

theorem minInt_spec (a b : Nat) :
    (minInt a b ≤ a ∧ minInt a b ≤ b) ∧ (a ≤ b → minInt a b = a) ∧
    (b ≤ a → minInt a b = b) := by
  simp only [minInt]
  split <;> omega

theorem div_lt_numTilesAcross (x w : Nat) (h : x < w) :
    x / maxTileSize < numTilesAcross w := by
  simp only [numTilesAcross, maxTileSize]
  omega

/-- C8: every tile produced by loadTiledEbitenImage is at most
maxTileSize = 2048 pixels in each dimension; the k-th tile of the
row-major emission order (y-major, then x) is exactly the sub-image of
the corrected buffer at grid cell (k mod tilesPerRow, k div
tilesPerRow); tiles not in the trailing column have width exactly 2048
and tiles not in the trailing row have height exactly 2048, so only
trailing row and column tiles may be smaller. -/
theorem loadTiledEbitenImage_tile_grid (decoded : Img) (o : Int) (src : Img)
    (hsrc : src = applyEXIFOrientation decoded o) (k : Nat)
    (hk : k < (loadTiledEbitenImage decoded o).tiles.length) :
    (∀ tile ∈ (loadTiledEbitenImage decoded o).tiles,
        tile.w ≤ maxTileSize ∧ tile.h ≤ maxTileSize) ∧
    (loadTiledEbitenImage decoded o).tiles[k]? =
      some (subTile src ((k % numTilesAcross src.w) * maxTileSize)
        ((k / numTilesAcross src.w) * maxTileSize)) ∧
    (k % numTilesAcross src.w + 1 < numTilesAcross src.w →
      (subTile src ((k % numTilesAcross src.w) * maxTileSize)
        ((k / numTilesAcross src.w) * maxTileSize)).w = maxTileSize) ∧
    (k / numTilesAcross src.w + 1 < numTilesAcross src.h →
      (subTile src ((k % numTilesAcross src.w) * maxTileSize)
        ((k / numTilesAcross src.w) * maxTileSize)).h = maxTileSize) := by
  subst hsrc
  set s := applyEXIFOrientation decoded o with hs
  have ht : (loadTiledEbitenImage decoded o).tiles = tilesOf s := rfl
  rw [ht, tilesOf_length] at hk
  refine ⟨?_, ?_, ?_, ?_⟩
  · intro tile htile
    rw [ht] at htile
    simp only [tilesOf, List.mem_flatMap, List.mem_map] at htile
    obtain ⟨y, hy, x, hx, rfl⟩ := htile
    constructor
    · simp only [subTile, minInt]
      split <;> omega
    · simp only [subTile, minInt]
      split <;> omega
  · rw [ht]
    exact tilesOf_getElem s k hk
  · intro hcol
    simp only [subTile, minInt, numTilesAcross, maxTileSize] at hcol ⊢
    split <;> omega
  · intro hrow
    simp only [subTile, minInt, numTilesAcross, maxTileSize] at hrow ⊢
    split <;> omega

/-- Witness for C8 on the concrete 3000 x 2500 buffer: tile 0 of the
2 x 2 grid is the sub-image at the origin and has full width 2048. -/
theorem loadTiledEbitenImage_tile_grid_witness :
    (loadTiledEbitenImage imgLarge 1).tiles[0]? =
      some (subTile (applyEXIFOrientation imgLarge 1) 0 0) ∧
    (subTile (applyEXIFOrientation imgLarge 1) 0 0).w = maxTileSize := by
  have hlen : (loadTiledEbitenImage imgLarge 1).tiles.length =
      numTilesAcross (applyEXIFOrientation imgLarge 1).h *
        numTilesAcross (applyEXIFOrientation imgLarge 1).w :=
    tilesOf_length _
  have h := loadTiledEbitenImage_tile_grid imgLarge 1
    (applyEXIFOrientation imgLarge 1) rfl 0 (by rw [hlen]; decide)
  obtain ⟨-, h2, h3, -⟩ := h
  constructor
  · simpa using h2
  · have h4 := h3 (by decide)
    simpa using h4

theorem minInt_cases (a b : Nat) :
    (minInt a b = a ∧ a ≤ b) ∨ (minInt a b = b ∧ b ≤ a) := by
  simp only [minInt]
  split <;> omega

theorem reconstruct_px (s : Img) (x y : Nat) (hx : x < s.w) (hy : y < s.h) :
    (reconstruct ⟨tilesOf s, s.w, s.h⟩).px x y = s.px x y := by
  have htX : x / maxTileSize < numTilesAcross s.w :=
    div_lt_numTilesAcross x s.w hx
  have htY : y / maxTileSize < numTilesAcross s.h :=
    div_lt_numTilesAcross y s.h hy
  have htXpos : 0 < numTilesAcross s.w :=
    Nat.lt_of_le_of_lt (Nat.zero_le _) htX
  have hk : (y / maxTileSize) * numTilesAcross s.w + x / maxTileSize <
      numTilesAcross s.h * numTilesAcross s.w := by
    have h1 : (y / maxTileSize) * numTilesAcross s.w + x / maxTileSize <
        (y / maxTileSize + 1) * numTilesAcross s.w := by
      rw [Nat.succ_mul]
      omega
    have h2 : (y / maxTileSize + 1) * numTilesAcross s.w ≤
        numTilesAcross s.h * numTilesAcross s.w :=
      Nat.mul_le_mul_right _ htY
    omega
  have hidx := tilesOf_getElem s _ hk
  have hmod : ((y / maxTileSize) * numTilesAcross s.w + x / maxTileSize) %
      numTilesAcross s.w = x / maxTileSize := by
    rw [Nat.mul_comm (y / maxTileSize) (numTilesAcross s.w),
      Nat.mul_add_mod, Nat.mod_eq_of_lt htX]
  have hdiv : ((y / maxTileSize) * numTilesAcross s.w + x / maxTileSize) /
      numTilesAcross s.w = y / maxTileSize := by
    rw [Nat.mul_comm (y / maxTileSize), Nat.mul_add_div htXpos,
      Nat.div_eq_of_lt htX, Nat.add_zero]
  show ((tilesOf s)[(y / maxTileSize) * numTilesAcross s.w +
      x / maxTileSize]?.getD zeroImg).px (x % maxTileSize) (y % maxTileSize) =
    s.px x y
  rw [hidx]
  simp only [Option.getD_some]
  rw [hmod, hdiv]
  simp only [subTile]
  have hx2 : (x / maxTileSize) * maxTileSize + x % maxTileSize = x := by
    simp only [maxTileSize]
    omega
  have hy2 : (y / maxTileSize) * maxTileSize + y % maxTileSize = y := by
    simp only [maxTileSize]
    omega
  rw [hx2, hy2]

theorem coversAt_exists_unique (s : Img) (x y : Nat) (hx : x < s.w)
    (hy : y < s.h) :
    ∃! k, coversAt ⟨tilesOf s, s.w, s.h⟩ k x y := by
  have htX : x / maxTileSize < numTilesAcross s.w :=
    div_lt_numTilesAcross x s.w hx
  have htY : y / maxTileSize < numTilesAcross s.h :=
    div_lt_numTilesAcross y s.h hy
  have htXpos : 0 < numTilesAcross s.w :=
    Nat.lt_of_le_of_lt (Nat.zero_le _) htX
  have hk : (y / maxTileSize) * numTilesAcross s.w + x / maxTileSize <
      numTilesAcross s.h * numTilesAcross s.w := by
    have h1 : (y / maxTileSize) * numTilesAcross s.w + x / maxTileSize <
        (y / maxTileSize + 1) * numTilesAcross s.w := by
      rw [Nat.succ_mul]
      omega
    have h2 : (y / maxTileSize + 1) * numTilesAcross s.w ≤
        numTilesAcross s.h * numTilesAcross s.w :=
      Nat.mul_le_mul_right _ htY
    omega
  have hidx := tilesOf_getElem s _ hk
  have hmod : ((y / maxTileSize) * numTilesAcross s.w + x / maxTileSize) %
      numTilesAcross s.w = x / maxTileSize := by
    rw [Nat.mul_comm (y / maxTileSize) (numTilesAcross s.w),
      Nat.mul_add_mod, Nat.mod_eq_of_lt htX]
  have hdiv : ((y / maxTileSize) * numTilesAcross s.w + x / maxTileSize) /
      numTilesAcross s.w = y / maxTileSize := by
    rw [Nat.mul_comm (y / maxTileSize), Nat.mul_add_div htXpos,
      Nat.div_eq_of_lt htX, Nat.add_zero]
  refine ⟨(y / maxTileSize) * numTilesAcross s.w + x / maxTileSize, ?_, ?_⟩
  · simp only [coversAt]
    rw [tilesOf_length, hidx, hmod, hdiv]
    simp only [Option.getD_some, subTile]
    refine ⟨hk, ?_, ?_, ?_, ?_⟩
    · simp only [maxTileSize]
      omega
    · rcases minInt_cases ((x / maxTileSize) * maxTileSize + maxTileSize)
        s.w with ⟨hmin, hle⟩ | ⟨hmin, hle⟩ <;>
        (rw [hmin]; simp only [maxTileSize] at *; omega)
    · simp only [maxTileSize]
      omega
    · rcases minInt_cases ((y / maxTileSize) * maxTileSize + maxTileSize)
        s.h with ⟨hmin, hle⟩ | ⟨hmin, hle⟩ <;>
        (rw [hmin]; simp only [maxTileSize] at *; omega)
  · intro j hj
    simp only [coversAt] at hj
    rw [tilesOf_length] at hj
    have hidxj := tilesOf_getElem s j hj.1
    rw [hidxj] at hj
    simp only [Option.getD_some, subTile] at hj
    obtain ⟨hj1, hjx1, hjx2, hjy1, hjy2⟩ := hj
    have hmj : j % numTilesAcross s.w = x / maxTileSize := by
      rcases minInt_cases ((j % numTilesAcross s.w) * maxTileSize +
          maxTileSize) s.w with ⟨hmin, hle⟩ | ⟨hmin, hle⟩ <;>
        (rw [hmin] at hjx2; simp only [maxTileSize] at *; omega)
    have hqj : j / numTilesAcross s.w = y / maxTileSize := by
      rcases minInt_cases ((j / numTilesAcross s.w) * maxTileSize +
          maxTileSize) s.h with ⟨hmin, hle⟩ | ⟨hmin, hle⟩ <;>
        (rw [hmin] at hjy2; simp only [maxTileSize] at *; omega)
    have hsum := Nat.div_add_mod j (numTilesAcross s.w)
    rw [hqj, hmj] at hsum
    rw [← hsum, Nat.mul_comm]

/-- C3: placing each tile produced by loadTiledEbitenImage at its
row-major grid position reconstructs the orientation-corrected buffer
exactly, and every pixel of the corrected buffer is covered by exactly
one placed tile, for any width and height including non-multiples of
maxTileSize. -/
theorem loadTiledEbitenImage_reconstruct_exact (decoded : Img) (o : Int)
    (src : Img) (hsrc : src = applyEXIFOrientation decoded o) :
    Img.eqOn (reconstruct (loadTiledEbitenImage decoded o)) src ∧
    ∀ x, x < src.w → ∀ y, y < src.h →
      ∃! k, coversAt (loadTiledEbitenImage decoded o) k x y := by
  subst hsrc
  have hT : loadTiledEbitenImage decoded o =
      ⟨tilesOf (applyEXIFOrientation decoded o),
       (applyEXIFOrientation decoded o).w,
       (applyEXIFOrientation decoded o).h⟩ := rfl
  rw [hT]
  constructor
  · exact ⟨rfl, rfl, fun x hx y hy => reconstruct_px _ x y hx hy⟩
  · intro x hx y hy
    exact coversAt_exists_unique _ x y hx hy

/-- Witness for C3 on the concrete 3000 x 2500 buffer, at pixel
(2500, 100) which lies in the second tile column. -/
theorem loadTiledEbitenImage_reconstruct_exact_witness :
    Img.eqOn (reconstruct (loadTiledEbitenImage imgLarge 1))
      (applyEXIFOrientation imgLarge 1) ∧
    ∃! k, coversAt (loadTiledEbitenImage imgLarge 1) k 2500 100 := by
  have h := loadTiledEbitenImage_reconstruct_exact imgLarge 1
    (applyEXIFOrientation imgLarge 1) rfl
  exact ⟨h.1, h.2 2500 (by decide) 100 (by decide)⟩

/-- C9: loadTiledEbitenImage produces exactly
ceil(w / 2048) * ceil(h / 2048) tiles, the draw routines that re-derive
the grid from totalWidth and totalHeight (drawSingleImage,
drawTiledImage) access exactly the indices 0, 1, ..., length - 1 in
order — each tile exactly once and never out of bounds — and a zero
width or height yields zero tiles and no draw accesses. -/
theorem loadTiledEbitenImage_tile_count_draw (decoded : Img) (o : Int)
    (src : Img) (hsrc : src = applyEXIFOrientation decoded o) :
    (loadTiledEbitenImage decoded o).tiles.length =
      numTilesAcross src.w * numTilesAcross src.h ∧
    drawSingleImageVisits (loadTiledEbitenImage decoded o) =
      List.range (loadTiledEbitenImage decoded o).tiles.length ∧
    drawTiledImageVisits (loadTiledEbitenImage decoded o) =
      List.range (loadTiledEbitenImage decoded o).tiles.length ∧
    (src.w = 0 ∨ src.h = 0 →
      (loadTiledEbitenImage decoded o).tiles = [] ∧
      drawSingleImageVisits (loadTiledEbitenImage decoded o) = [] ∧
      drawTiledImageVisits (loadTiledEbitenImage decoded o) = []) := by
  subst hsrc
  set s := applyEXIFOrientation decoded o with hs
  have ht : (loadTiledEbitenImage decoded o).tiles = tilesOf s := rfl
  have hw : (loadTiledEbitenImage decoded o).totalWidth = s.w := rfl
  have hh : (loadTiledEbitenImage decoded o).totalHeight = s.h := rfl
  have hvis : drawVisit s.w s.h 0 0 = List.range (tilesOf s).length := by
    rw [drawVisit_zero, tilesOf_length]
  refine ⟨?_, ?_, ?_, ?_⟩
  · rw [ht, tilesOf_length, Nat.mul_comm]
  · rw [drawSingleImageVisits, hw, hh, ht, hvis]
  · rw [drawTiledImageVisits, hw, hh, ht, hvis]
  · intro h0
    have hlen : (tilesOf s).length = 0 := by
      rw [tilesOf_length]
      rcases h0 with h | h <;> simp [numTilesAcross, maxTileSize, h]
    refine ⟨?_, ?_, ?_⟩
    · rw [ht]
      exact List.length_eq_zero.mp hlen
    · rw [drawSingleImageVisits, hw, hh, hvis, hlen]
      rfl
    · rw [drawTiledImageVisits, hw, hh, hvis, hlen]
      rfl

/-- Witness for C9 on the concrete 3000 x 2500 buffer: the 2 x 2 grid
has four tiles and the draw loop visits indices 0..3. -/
theorem loadTiledEbitenImage_tile_count_draw_witness :
    (loadTiledEbitenImage imgLarge 1).tiles.length =
      numTilesAcross (applyEXIFOrientation imgLarge 1).w *
        numTilesAcross (applyEXIFOrientation imgLarge 1).h ∧
    drawTiledImageVisits (loadTiledEbitenImage imgLarge 1) =
      List.range (loadTiledEbitenImage imgLarge 1).tiles.length :=
  ⟨(loadTiledEbitenImage_tile_count_draw imgLarge 1
      (applyEXIFOrientation imgLarge 1) rfl).1,
   (loadTiledEbitenImage_tile_count_draw imgLarge 1
      (applyEXIFOrientation imgLarge 1) rfl).2.2.1⟩

/-- C4: whenever Update observes the wall clock past the stored
switchTime, it calls advanceSlide, which sets currentIndex to
(currentIndex + 1) mod len(slides) — wrapping to 0 past the last
slide — emits the dispose events for the previous slide images followed
by the load attempts for the new slide, installs the newly loaded
images on success, and resets the deadline to now plus the configured
interval. -/
theorem Update_deadline_advances {T : Type} (load : Photo → Except String T)
    (now : Int) (g : SlideshowGame T) (htime : g.switchTime < now)
    (hidx : 0 ≤ g.currentIndex) (hne : g.slides ≠ []) :
    Update load false now g = some (advanceSlide load now g) ∧
    (advanceSlide load now g).1.currentIndex =
      (g.currentIndex + 1).tmod (g.slides.length : Int) ∧
    0 ≤ (advanceSlide load now g).1.currentIndex ∧
    (advanceSlide load now g).1.currentIndex < (g.slides.length : Int) ∧
    (g.currentIndex = (g.slides.length : Int) - 1 →
      (advanceSlide load now g).1.currentIndex = 0) ∧
    (advanceSlide load now g).1.switchTime = now + g.interval ∧
    (advanceSlide load now g).2 =
      g.currentTiledImages.map SlideshowEv.dispose ++
        (loadPhotos load ((g.slides.getD
          ((g.currentIndex + 1).tmod (g.slides.length : Int)).toNat
          ⟨[]⟩).Photos)).2 ∧
    ∀ imgs evs, loadPhotos load ((g.slides.getD
          ((g.currentIndex + 1).tmod (g.slides.length : Int)).toNat
          ⟨[]⟩).Photos) = (Except.ok imgs, evs) →
      (advanceSlide load now g).1.currentTiledImages = imgs := by
  have hlen : 0 < (g.slides.length : Int) := by
    have h := List.length_pos.mpr hne
    exact_mod_cast h
  have hup : Update load false now g = some (advanceSlide load now g) := by
    rw [Update, if_neg (by simp), if_pos htime]
  have hadv := advanceSlide_eq load now g hidx hne
  refine ⟨hup, ?_⟩
  rcases hlp : loadPhotos load ((g.slides.getD
      ((g.currentIndex + 1).tmod (g.slides.length : Int)).toNat
      ⟨[]⟩).Photos) with ⟨r, evs⟩
  rw [hlp] at hadv
  have h0 : 0 ≤ (g.currentIndex + 1).tmod (g.slides.length : Int) :=
    Int.tmod_nonneg _ (by omega)
  have h1 : (g.currentIndex + 1).tmod (g.slides.length : Int) <
      (g.slides.length : Int) :=
    Int.tmod_lt_of_pos _ hlen
  have hwrap : g.currentIndex = (g.slides.length : Int) - 1 →
      (g.currentIndex + 1).tmod (g.slides.length : Int) = 0 := by
    intro hlast
    rw [hlast]
    simp [Int.sub_add_cancel, Int.tmod_self]
  cases r with
  | error e =>
    rw [hadv]
    refine ⟨rfl, h0, h1, hwrap, rfl, rfl, ?_⟩
    intro imgs evs2 hok
    simp at hok
  | ok imgs =>
    rw [hadv]
    refine ⟨rfl, h0, h1, hwrap, rfl, rfl, ?_⟩
    intro imgs2 evs2 hok
    simp only [Prod.mk.injEq, Except.ok.injEq] at hok
    exact hok.1

/-- Witness for C4 on a concrete game with three slides at index 0 and
an expired deadline. -/
theorem Update_deadline_advances_witness :
    Update exLoad false 100 (NewSlideshowGame Nat exSlides 5 0 false) =
      some (advanceSlide exLoad 100
        (NewSlideshowGame Nat exSlides 5 0 false)) ∧
    SlideshowGame.currentIndex
      (advanceSlide exLoad 100 (NewSlideshowGame Nat exSlides 5 0 false)).1 =
      (1 : Int).tmod 3 := by
  have h := Update_deadline_advances exLoad 100
    (NewSlideshowGame Nat exSlides 5 0 false)
    (by norm_num [NewSlideshowGame]) (by simp [NewSlideshowGame])
    (by simp [NewSlideshowGame, exSlides])
  exact ⟨h.1, h.2.1⟩

/-- C5: when the load during an advance fails, the previous slide
images were disposed before any load attempt (the advance trace is the
dispose events followed by the load-attempt events), no stale images
remain resident, the error is recorded, Draw renders the error message
instead of pixels, the error is kept verbatim by ticks that do not
advance, and a later advance clears it exactly when its own load
succeeds. -/
theorem advanceSlide_failure_no_stale {T : Type}
    (load : Photo → Except String T) (now : Int) (g : SlideshowGame T)
    (hidx : 0 ≤ g.currentIndex) (hne : g.slides ≠ [])
    (e : String) (evs : List (SlideshowEv T))
    (hfail : loadPhotos load ((g.slides.getD
        ((g.currentIndex + 1).tmod (g.slides.length : Int)).toNat
        ⟨[]⟩).Photos) = (Except.error e, evs)) :
    (advanceSlide load now g).1.currentTiledImages = [] ∧
    (advanceSlide load now g).1.loadingError =
      some (LoadErr.loadFail e) ∧
    Draw (advanceSlide load now g).1 =
      DrawOut.message ("Error loading image(s):\n" ++ e) ∧
    (advanceSlide load now g).2 =
      g.currentTiledImages.map SlideshowEv.dispose ++ evs ∧
    (∀ ev ∈ evs, ∃ p, ev = SlideshowEv.loadAttempt p) ∧
    (∀ now2, ¬ (advanceSlide load now g).1.switchTime < now2 →
      Update load false now2 (advanceSlide load now g).1 =
        some ((advanceSlide load now g).1, [])) ∧
    (∀ now2 imgs evs2,
      loadPhotos load (((advanceSlide load now g).1.slides.getD
          (((advanceSlide load now g).1.currentIndex + 1).tmod
            (((advanceSlide load now g).1.slides.length : Nat) : Int)).toNat
          ⟨[]⟩).Photos) = (Except.ok imgs, evs2) →
      (advanceSlide load now2 (advanceSlide load now g).1).1.loadingError =
        none) ∧
    (∀ now2 e2 evs2,
      loadPhotos load (((advanceSlide load now g).1.slides.getD
          (((advanceSlide load now g).1.currentIndex + 1).tmod
            (((advanceSlide load now g).1.slides.length : Nat) : Int)).toNat
          ⟨[]⟩).Photos) = (Except.error e2, evs2) →
      (advanceSlide load now2 (advanceSlide load now g).1).1.loadingError =
        some (LoadErr.loadFail e2)) := by
  have hlen : 0 < (g.slides.length : Int) := by
    have h := List.length_pos.mpr hne
    exact_mod_cast h
  have h0 : 0 ≤ (g.currentIndex + 1).tmod (g.slides.length : Int) :=
    Int.tmod_nonneg _ (by omega)
  have hadv := advanceSlide_eq load now g hidx hne
  rw [hfail] at hadv
  have hst : (advanceSlide load now g).1 = { g with
      currentIndex := (g.currentIndex + 1).tmod (g.slides.length : Int),
      currentTiledImages := [],
      loadingError := some (LoadErr.loadFail e),
      switchTime := now + g.interval } := by
    rw [hadv]
  have htr : (advanceSlide load now g).2 =
      g.currentTiledImages.map SlideshowEv.dispose ++ evs := by
    rw [hadv]
  refine ⟨by rw [hst], by rw [hst], ?_, htr, ?_, ?_, ?_, ?_⟩
  · rw [hst, Draw]
    rw [if_neg (by simp [hne])]
    rfl
  · intro ev hev
    have h2 := loadPhotos_events load ((g.slides.getD
        ((g.currentIndex + 1).tmod (g.slides.length : Int)).toNat
        ⟨[]⟩).Photos) ev
    rw [hfail] at h2
    exact h2 hev
  · intro now2 hnot
    rw [Update, if_neg (by simp), if_neg hnot]
  · intro now2 imgs evs2 hok
    have hidx2 : 0 ≤ (advanceSlide load now g).1.currentIndex := by
      rw [hst]
      exact h0
    have hne2 : (advanceSlide load now g).1.slides ≠ [] := by
      rw [hst]
      exact hne
    have hadv2 := advanceSlide_eq load now2 (advanceSlide load now g).1
      hidx2 hne2
    rw [hok] at hadv2
    rw [hadv2]
  · intro now2 e2 evs2 herr
    have hidx2 : 0 ≤ (advanceSlide load now g).1.currentIndex := by
      rw [hst]
      exact h0
    have hne2 : (advanceSlide load now g).1.slides ≠ [] := by
      rw [hst]
      exact hne
    have hadv2 := advanceSlide_eq load now2 (advanceSlide load now g).1
      hidx2 hne2
    rw [herr] at hadv2
    rw [hadv2]

/-- Witness for C5 on a concrete game whose loader always fails. -/
theorem advanceSlide_failure_no_stale_witness :
    SlideshowGame.currentTiledImages
      (advanceSlide exLoadFail 100
        (NewSlideshowGame Nat exSlides 5 0 false)).1 = [] ∧
    SlideshowGame.loadingError
      (advanceSlide exLoadFail 100
        (NewSlideshowGame Nat exSlides 5 0 false)).1 =
      some (LoadErr.loadFail "boom") ∧
    Draw (advanceSlide exLoadFail 100
        (NewSlideshowGame Nat exSlides 5 0 false)).1 =
      DrawOut.message ("Error loading image(s):\n" ++ "boom") := by
  have h := advanceSlide_failure_no_stale exLoadFail 100
    (NewSlideshowGame Nat exSlides 5 0 false)
    (by simp [NewSlideshowGame]) (by simp [NewSlideshowGame, exSlides])
    "boom" [SlideshowEv.loadAttempt pB]
    (by simp [NewSlideshowGame, exSlides, loadPhotos, exLoadFail])
  exact ⟨h.1, h.2.1, h.2.2.1⟩

theorem handleLeftEvent_eq {T : Type} (load : Photo → Except String T)
    (now : Int) (g : SlideshowGame T) (hidx : 0 ≤ g.currentIndex)
    (hlt : g.currentIndex < (g.slides.length : Int)) :
    handleLeftEvent load now g =
      ((match (loadPhotos load ((g.slides.getD
            (if g.currentIndex = 0 then (g.slides.length : Int) - 1
             else g.currentIndex - 1).toNat
            ⟨[]⟩).Photos) :
          Except String (List T) × List (SlideshowEv T)) with
        | (Except.error e, _) => { g with
            currentIndex :=
              if g.currentIndex = 0 then (g.slides.length : Int) - 1
              else g.currentIndex - 1,
            currentTiledImages := [],
            loadingError := some (LoadErr.loadFail e),
            switchTime := now + g.interval }
        | (Except.ok imgs, _) => { g with
            currentIndex :=
              if g.currentIndex = 0 then (g.slides.length : Int) - 1
              else g.currentIndex - 1,
            currentTiledImages := imgs,
            loadingError := none,
            switchTime := now + g.interval }),
       g.currentTiledImages.map SlideshowEv.dispose ++
         (loadPhotos load ((g.slides.getD
            (if g.currentIndex = 0 then (g.slides.length : Int) - 1
             else g.currentIndex - 1).toNat
            ⟨[]⟩).Photos)).2) := by
  have h0 : 0 ≤ (if g.currentIndex = 0 then (g.slides.length : Int) - 1
      else g.currentIndex - 1) := by
    split <;> omega
  have h1 : (if g.currentIndex = 0 then (g.slides.length : Int) - 1
      else g.currentIndex - 1) < (g.slides.length : Int) := by
    split <;> omega
  rw [handleLeftEvent, freeSlideImages_eq, LoadCurrentSlide]
  dsimp only
  rw [if_neg (by push_neg; exact ⟨by omega, by omega⟩)]
  rw [freeSlideImages_eq]
  dsimp only
  rcases hlp : loadPhotos load ((g.slides.getD
      (if g.currentIndex = 0 then (g.slides.length : Int) - 1
       else g.currentIndex - 1).toNat
      ⟨[]⟩).Photos) with ⟨r, evs⟩
  cases r with
  | error e => simp [hlp]
  | ok imgs => simp [hlp]

/-- C6: a Left remote event decrements the current slide index with
wraparound to the last slide when at index 0 (with 3 slides and index
0, Left yields index 2), reloads the slide (disposing the resident
images and attempting the loads), and resets the deadline; no state of
the controller is excluded. -/
theorem handleLeftEvent_wraparound {T : Type}
    (load : Photo → Except String T) (now : Int) (g : SlideshowGame T)
    (hidx : 0 ≤ g.currentIndex)
    (hlt : g.currentIndex < (g.slides.length : Int)) :
    (handleLeftEvent load now g).1.currentIndex =
      (g.currentIndex - 1 + (g.slides.length : Int)).tmod
        (g.slides.length : Int) ∧
    (g.currentIndex = 0 →
      (handleLeftEvent load now g).1.currentIndex =
        (g.slides.length : Int) - 1) ∧
    0 ≤ (handleLeftEvent load now g).1.currentIndex ∧
    (handleLeftEvent load now g).1.currentIndex <
      (g.slides.length : Int) ∧
    (handleLeftEvent load now g).1.switchTime = now + g.interval ∧
    (handleLeftEvent load now g).2 =
      g.currentTiledImages.map SlideshowEv.dispose ++
        (loadPhotos load ((g.slides.getD
          (handleLeftEvent load now g).1.currentIndex.toNat
          ⟨[]⟩).Photos)).2 ∧
    ∀ imgs evs, loadPhotos load ((g.slides.getD
          (if g.currentIndex = 0 then (g.slides.length : Int) - 1
           else g.currentIndex - 1).toNat
          ⟨[]⟩).Photos) = (Except.ok imgs, evs) →
      (handleLeftEvent load now g).1.currentTiledImages = imgs := by
  have hlen : 0 < (g.slides.length : Int) := by omega
  have hmodeq : (if g.currentIndex = 0 then (g.slides.length : Int) - 1
      else g.currentIndex - 1) =
      (g.currentIndex - 1 + (g.slides.length : Int)).tmod
        (g.slides.length : Int) := by
    rw [Int.tmod_eq_emod (by omega) (by omega)]
    split
    · rename_i hz
      rw [hz]
      rw [show (0 : Int) - 1 + (g.slides.length : Int) =
        (g.slides.length : Int) - 1 from by ring]
      rw [Int.emod_eq_of_lt (by omega) (by omega)]
    · rename_i hz
      rw [show g.currentIndex - 1 + (g.slides.length : Int) =
        (g.currentIndex - 1) + (g.slides.length : Int) * 1 from by ring]
      rw [Int.add_mul_emod_self_left]
      rw [Int.emod_eq_of_lt (by omega) (by omega)]
  have h0 : 0 ≤ (if g.currentIndex = 0 then (g.slides.length : Int) - 1
      else g.currentIndex - 1) := by
    split <;> omega
  have h1 : (if g.currentIndex = 0 then (g.slides.length : Int) - 1
      else g.currentIndex - 1) < (g.slides.length : Int) := by
    split <;> omega
  have heq := handleLeftEvent_eq load now g hidx hlt
  rcases hlp : loadPhotos load ((g.slides.getD
      (if g.currentIndex = 0 then (g.slides.length : Int) - 1
       else g.currentIndex - 1).toNat
      ⟨[]⟩).Photos) with ⟨r, evs⟩
  rw [hlp] at heq
  cases r with
  | error e =>
    rw [heq]
    dsimp only
    refine ⟨hmodeq, ?_, h0, h1, rfl, ?_, ?_⟩
    · intro hz
      rw [if_pos hz]
    · rw [hlp]
    · intro imgs evs2 hok
      simp at hok
  | ok imgs =>
    rw [heq]
    dsimp only
    refine ⟨hmodeq, ?_, h0, h1, rfl, ?_, ?_⟩
    · intro hz
      rw [if_pos hz]
    · rw [hlp]
    · intro imgs2 evs2 hok
      simp only [Prod.mk.injEq, Except.ok.injEq] at hok
      exact hok.1

/-- Witness for C6 on the spec scenario: 3 slides, index 0, Left gives
index 2. -/
theorem handleLeftEvent_wraparound_witness :
    SlideshowGame.currentIndex
      (handleLeftEvent exLoad 100
        (NewSlideshowGame Nat exSlides 5 0 false)).1 = 2 := by
  have h := handleLeftEvent_wraparound exLoad 100
    (NewSlideshowGame Nat exSlides 5 0 false)
    (by simp [NewSlideshowGame]) (by simp [NewSlideshowGame, exSlides])
  have h2 := h.2.1 (by simp [NewSlideshowGame])
  simpa [NewSlideshowGame, exSlides] using h2

/-- C7: starting from the constructor state (currentIndex 0), every
state reachable through Update (and hence advanceSlide) keeps
currentIndex inside [0, len(slides)) whenever the slide list is
non-empty, so the defensive invalid-index branch at the top of
LoadCurrentSlide can never fire on a reachable state. -/
theorem reachable_index_in_bounds {T : Type}
    (load : Photo → Except String T) (g : SlideshowGame T)
    (hr : ReachableGame load g) (hne : g.slides ≠ []) :
    0 ≤ g.currentIndex ∧ g.currentIndex < (g.slides.length : Int) ∧
    ¬ (g.currentIndex < 0 ∨ (g.slides.length : Int) ≤ g.currentIndex) ∧
    ∀ load2 : Photo → Except String T, ∀ i : Int,
      (LoadCurrentSlide load2 g).1 ≠
        Except.error (LoadErr.invalidIndex i) := by
  have key : ∀ gx : SlideshowGame T, ReachableGame load gx →
      gx.slides ≠ [] →
      0 ≤ gx.currentIndex ∧ gx.currentIndex < (gx.slides.length : Int) := by
    intro gx hrx
    induction hrx with
    | init slides interval now d =>
      intro hnex
      refine ⟨le_refl 0, ?_⟩
      show (0 : Int) < ((slides.length : Nat) : Int)
      exact_mod_cast List.length_pos.mpr hnex
    | step g1 gn esc now tr hg1 hup ih =>
      intro hnex
      rw [Update] at hup
      split at hup
      · simp at hup
      · split at hup
        · injection hup with hpair
          have hsl := (advanceSlide_preserves load now g1).1
          have hix := (advanceSlide_preserves load now g1).2
          rw [hpair] at hsl hix
          dsimp only at hsl hix
          have hne1 : g1.slides ≠ [] := by
            rw [← hsl]
            exact hnex
          have hb := ih hne1
          have hlen : 0 < (g1.slides.length : Int) := by
            have hlp := List.length_pos.mpr hne1
            exact_mod_cast hlp
          rw [hix, hsl]
          exact ⟨Int.tmod_nonneg _ (by omega),
            Int.tmod_lt_of_pos _ hlen⟩
        · injection hup with hpair
          have h1 : g1 = gn := congrArg Prod.fst hpair
          rw [← h1]
          rw [← h1] at hnex
          exact ih hnex
  have hb := key g hr hne
  refine ⟨hb.1, hb.2, by omega, ?_⟩
  intro load2 i
  rw [LoadCurrentSlide, if_neg (by omega)]
  dsimp only
  split <;> simp

/-- Witness for C7 at the concrete initial state with three slides. -/
theorem reachable_index_in_bounds_witness :
    0 ≤ (NewSlideshowGame Nat exSlides 5 0 false).currentIndex ∧
    (NewSlideshowGame Nat exSlides 5 0 false).currentIndex <
      ((NewSlideshowGame Nat exSlides 5 0 false).slides.length : Int) := by
  have h := reachable_index_in_bounds exLoad
    (NewSlideshowGame Nat exSlides 5 0 false)
    (ReachableGame.init exSlides 5 0 false)
    (by simp [NewSlideshowGame, exSlides])
  exact ⟨h.1, h.2.1⟩
